import Mathlib

/-!
Shallow embedding of the query-construction and response-shaping layer of an
Elasticsearch MCP analytics server (TypeScript source), together with proofs
of the specified properties.

Modelling conventions:
* JavaScript numbers are modelled as exact rationals (`ℚ`); `Math.round` is
  `⌊x + 1/2⌋` (which is exactly JS `Math.round`), and `toFixed(2)` followed by
  `parseFloat` is modelled as rounding to two decimals.
* JavaScript strings are modelled as `List Char` (their character sequences).
* JS `x || y` on numbers (0 and null falsy) and `x ?? y` are modelled by
  explicit helpers below.
* Calendar arithmetic of the JS `Date` object (UTC) is modelled by a civil
  date ↔ epoch-day conversion (proleptic Gregorian), matching ECMAScript's
  `MakeDay` normalization for out-of-range fields.
-/

namespace ESMcp

/-- JS `a?.value || b` for a possibly-missing numeric `a`: `null`/`undefined`
and `0` are falsy and fall through to `b`. -/
def jsOr (o : Option ℚ) (fb : ℚ) : ℚ :=
  match o with
  | some v => if v = 0 then fb else v
  | none => fb

/-- JS `a?.value || null`: a missing or zero value becomes `null`. -/
def jsOrNull (o : Option ℚ) : Option ℚ :=
  match o with
  | some v => if v = 0 then none else some v
  | none => none

/-- JS `Math.round`: round half toward positive infinity, i.e. `⌊x + 1/2⌋`. -/
def jsRound (x : ℚ) : ℚ := (⌊x + 1/2⌋ : ℤ)

/-- `Math.round(x * 100) / 100`, the two-decimal rounding used throughout the
source (also our model of `toFixed(2)` + `parseFloat`). -/
def round2 (x : ℚ) : ℚ := jsRound (x * 100) / 100

/-- JS `a || b` for a possibly-missing string `a`: `undefined` and the empty
string are falsy. -/
def jsOrStr (o : Option (List Char)) (fb : List Char) : List Char :=
  match o with
  | some s => if s.isEmpty then fb else s
  | none => fb

/-! ## Calendar model for the JS `Date` object (UTC)

Civil ↔ epoch-day conversions for the proleptic Gregorian calendar, with
floor division, matching ECMAScript `MakeDay` (which normalizes arbitrary
out-of-range month/day fields linearly). -/

/-- Epoch days (days since 1970-01-01) of a civil date with month `m ∈ 1..12`;
`d` may be out of range and is normalized linearly, as in ECMAScript. -/
def daysFromCivil (y m d : ℤ) : ℤ :=
  let y2 := if m ≤ 2 then y - 1 else y
  let era := Int.fdiv y2 400
  let yoe := y2 - era * 400
  let mp := if m > 2 then m - 3 else m + 9
  let doy := Int.fdiv (153 * mp + 2) 5 + d - 1
  let doe := yoe * 365 + Int.fdiv yoe 4 - Int.fdiv yoe 100 + doy
  era * 146097 + doe - 719468

/-- Civil date `(year, month 1..12, day 1..31)` of an epoch-day number. -/
def civilFromDays (z : ℤ) : ℤ × ℤ × ℤ :=
  let z2 := z + 719468
  let era := Int.fdiv z2 146097
  let doe := z2 - era * 146097
  let yoe := Int.fdiv (doe - Int.fdiv doe 1460 + Int.fdiv doe 36524 - Int.fdiv doe 146096) 365
  let y := yoe + era * 400
  let doy := doe - (365 * yoe + Int.fdiv yoe 4 - Int.fdiv yoe 100)
  let mp := Int.fdiv (5 * doy + 2) 153
  let d := doy - Int.fdiv (153 * mp + 2) 5 + 1
  let m := mp + (if mp < 10 then 3 else -9)
  (if m ≤ 2 then y + 1 else y, m, d)

/-- ECMAScript `MakeDay(y, m0, d)`: month `m0` is 0-based and arbitrary, and
is normalized into the year; the day is normalized linearly. -/
def mkEpochDays (y m0 d : ℤ) : ℤ :=
  let ym := y + Int.fdiv m0 12
  let mn := Int.emod m0 12
  daysFromCivil ym (mn + 1) 1 + (d - 1)

/-- A JS `Date` in UTC: epoch days plus milliseconds within the day. -/
structure JSDate where
  days : ℤ
  msOfDay : ℤ
deriving DecidableEq, Repr

/-- `getTime()`: epoch milliseconds. -/
def JSDate.getTime (t : JSDate) : ℤ := t.days * 86400000 + t.msOfDay

/-- `getFullYear()` (UTC). -/
def JSDate.year (t : JSDate) : ℤ := (civilFromDays t.days).1

/-- `getMonth()` (0-based, UTC). -/
def JSDate.month0 (t : JSDate) : ℤ := (civilFromDays t.days).2.1 - 1

/-- `getDate()` (day of month, UTC). -/
def JSDate.dayOfMonth (t : JSDate) : ℤ := (civilFromDays t.days).2.2

/-- `getDay()` (weekday, 0 = Sunday; 1970-01-01 was a Thursday). -/
def JSDate.weekday (t : JSDate) : ℤ := Int.emod (t.days + 4) 7

/-- `setDate(n)`. -/
def JSDate.setDate (t : JSDate) (n : ℤ) : JSDate :=
  { t with days := mkEpochDays t.year t.month0 n }

/-- `setMonth(m)` (keeps the current day of month, normalizing). -/
def JSDate.setMonth (t : JSDate) (m : ℤ) : JSDate :=
  { t with days := mkEpochDays t.year m t.dayOfMonth }

/-- `setMonth(m, d)` (two-argument form, as in `now.setMonth(0, 1)`). -/
def JSDate.setMonthDay (t : JSDate) (m d : ℤ) : JSDate :=
  { t with days := mkEpochDays t.year m d }

/-- `setFullYear(y)`. -/
def JSDate.setFullYear (t : JSDate) (y : ℤ) : JSDate :=
  { t with days := mkEpochDays y t.month0 t.dayOfMonth }

/-- `setHours(0, 0, 0, 0)`. -/
def JSDate.startOfDay (t : JSDate) : JSDate := { t with msOfDay := 0 }

/-! ## Date-math resolver (`src/utils/date-math.ts`, `resolveDate`)

The absolute-timestamp branch (`new Date(dateStr)` on non-`now` strings) is
host-defined; it is a parameter `absParse` of the embedding. -/

/-- The characters of `"now"`. -/
def nowChars : List Char := ['n', 'o', 'w']

/-- The characters of `"now-"`. -/
def nowDashChars : List Char := ['n', 'o', 'w', '-']

/-- The offset-unit character class of the regex `^([+-])(\d+)([dMwYy])`.
Note: uppercase `D` and `W` are NOT in the class (the `case 'D'`/`case 'W'`
switch branches in the source are unreachable for the offset). -/
def offsetUnits : List Char := ['d', 'M', 'w', 'Y', 'y']

/-- Greedy `\d+`: split a leading digit run from the remainder. -/
def spanDigits : List Char → List Char × List Char
  | [] => ([], [])
  | c :: t =>
    if c.isDigit then
      let (ds, r) := spanDigits t
      (c :: ds, r)
    else ([], c :: t)

/-- `parseInt` on a digit run. -/
def natOfDigits (ds : List Char) : ℕ :=
  ds.foldl (fun n c => n * 10 + (c.toNat - 48)) 0

/-- Match of `^([+-])(\d+)([dMwYy])`: returns (isMinus, value, unit, rest). -/
def parseOffset : List Char → Option (Bool × ℕ × Char × List Char)
  | [] => none
  | c :: rest =>
    if c = '+' ∨ c = '-' then
      let (ds, r) := spanDigits rest
      if ds.isEmpty then none
      else
        match r with
        | u :: r2 => if u ∈ offsetUnits then some (decide (c = '-'), natOfDigits ds, u, r2) else none
        | [] => none
    else none

/-- The offset `switch (unit)` of `resolveDate` (no default: an unmatched
unit leaves the date unchanged). -/
def applyOffsetUnit (t : JSDate) (amount : ℤ) (u : Char) : JSDate :=
  if u = 'd' ∨ u = 'D' then t.setDate (t.dayOfMonth + amount)
  else if u = 'w' ∨ u = 'W' then t.setDate (t.dayOfMonth + amount * 7)
  else if u = 'M' then t.setMonth (t.month0 + amount)
  else if u = 'y' ∨ u = 'Y' then t.setFullYear (t.year + amount)
  else t

/-- The rounding `switch (roundingUnit)` of `resolveDate` (no default: an
unrecognized rounding unit rounds nothing and is silently ignored). -/
def applyRoundUnit (t : JSDate) (u : Option Char) : JSDate :=
  match u with
  | none => t
  | some c =>
    if c = 'd' ∨ c = 'D' then t.startOfDay
    else if c = 'w' ∨ c = 'W' then
      let day := t.weekday
      let diff := t.dayOfMonth - day + (if day = 0 then -6 else 1)
      (t.setDate diff).startOfDay
    else if c = 'M' then (t.setDate 1).startOfDay
    else if c = 'y' ∨ c = 'Y' then (t.setMonthDay 0 1).startOfDay
    else t

/-- The rounding-and-trailing-junk tail of `resolveDate`: consume an optional
`/` plus the single character after it (`substring(1, 2)` / `substring(2)`),
then fail iff anything is left over. -/
def resolveRounding (t : JSDate) (w : List Char) : Except Unit JSDate :=
  let (t2, w2) :=
    if w.head? = some '/' then (applyRoundUnit t (w.get? 1), w.drop 2)
    else (t, w)
  if w2.isEmpty then .ok t2 else .error ()

/-- The `now`-prefixed branch of `resolveDate`, applied to the characters
after `"now"`: parse and apply the optional offset, then the rounding and
trailing-junk tail. -/
def resolveRelative (now : JSDate) (w : List Char) : Except Unit JSDate :=
  match parseOffset w with
  | some (neg, v, u, rest) =>
    resolveRounding (applyOffsetUnit now (if neg then -(v : ℤ) else (v : ℤ)) u) rest
  | none => resolveRounding now w

/-- `resolveDate(dateStr)`, current version of `src/utils/date-math.ts`.
`absParse` models the host `new Date(dateStr)` parser for absolute strings
(`none` = unparseable / `NaN`); errors are collapsed to `Unit`. -/
def resolveDate (absParse : List Char → Option JSDate) (now : JSDate)
    (s : List Char) : Except Unit JSDate :=
  if s = nowChars then .ok now
  else if nowChars.isPrefixOf s then resolveRelative now (s.drop 3)
  else
    match absParse s with
    | some d => .ok d
    | none => .error ()

/-! ## `parseDateMath` and `capTimePeriod` (`src/utils/date-math.ts`)

`parseDateMath` calls `new Date()` a second time; the embedding idealizes the
two calls to the same instant `now` (the ~milliseconds of drift between them
are not representable in a pure model). -/

/-- Milliseconds per day. -/
def msPerDay : ℤ := 86400000

/-- `Math.ceil(a / b)` for integers with `b > 0`. -/
def ceilDiv (a b : ℤ) : ℤ := Int.fdiv (a + b - 1) b

/-- The fallback-unit character class of the regex `now-(\d+)([dwMy])`
(lowercase only, plus `M`; the uppercase comparisons in the source's
if-chain are unreachable). -/
def fallbackUnits : List Char := ['d', 'w', 'M', 'y']

/-- Unanchored first match of `now-(\d+)([dwMy])` anywhere in the string,
returning (value, unit): JS `String.match` semantics. -/
def matchNowDash : List Char → Option (ℕ × Char)
  | [] => none
  | c :: t =>
    (if nowDashChars.isPrefixOf (c :: t) then
      let after := (c :: t).drop 4
      let (ds, r) := spanDigits after
      if ds.isEmpty then none
      else
        match r with
        | u :: _ => if u ∈ fallbackUnits then some (natOfDigits ds, u) else none
        | [] => none
    else none).orElse (fun _ => matchNowDash t)

/-- `parseDateMath(dateStr)`: approximate day count from `now`. -/
def parseDateMath (absParse : List Char → Option JSDate) (now : JSDate)
    (s : List Char) : ℤ :=
  if s = nowChars then 0
  else
    match resolveDate absParse now s with
    | .ok date => ceilDiv |now.getTime - date.getTime| msPerDay
    | .error _ =>
      match matchNowDash s with
      | some (v, u) =>
        if u = 'd' ∨ u = 'D' then (v : ℤ)
        else if u = 'w' ∨ u = 'W' then (v : ℤ) * 7
        else if u = 'M' then (v : ℤ) * 30
        else if u = 'y' ∨ u = 'Y' then (v : ℤ) * 365
        else 0
      | none => 30

/-- Result record of `capTimePeriod`. -/
structure CapResult where
  startDate : List Char
  endDate : List Char
  wasAdjusted : Bool
deriving DecidableEq, Repr

/-- `capTimePeriod(startDate, endDate, maxDays)`. -/
def capTimePeriod (absParse : List Char → Option JSDate) (now : JSDate)
    (startDate endDate : List Char) (maxDays : ℤ) : CapResult :=
  let startDays := parseDateMath absParse now startDate
  let endDays := parseDateMath absParse now endDate
  let periodDays := |startDays - endDays|
  if periodDays > maxDays then
    let adjustedStart :=
      if nowDashChars.isPrefixOf startDate then
        nowDashChars ++ (toString maxDays).data ++ ['d']
      else startDate
    ⟨adjustedStart, endDate, true⟩
  else ⟨startDate, endDate, false⟩

/-! ## Aggregation sizing policy (`src/utils/aggregation-limits.ts`) -/

/-- `calculateTermsSize(requested, multiplier, max) = Math.min(requested * multiplier, max)`. -/
def calculateTermsSize (requested multiplier max : ℤ) : ℤ :=
  min (requested * multiplier) max

/-! ## Legacy top-change tool (`src/tools/top-change.ts`, `execute`)

Previous-period computation by approximate day counts and date-math string
rewriting (lines 57–102). -/

/-- The four period boundary strings computed by the legacy top-change tool;
they are used verbatim as the `gte`/`lt` bounds of the current-period and
previous-period range filters of the aggregation. -/
structure TCPeriods where
  currentStart : List Char
  currentEnd : List Char
  previousStart : List Char
  previousEnd : List Char
deriving DecidableEq, Repr

/-- Legacy `TopChangeTool.execute` period computation: defaulting, the 60-day
cap, and the previous-period string rewriting. -/
def legacyTopChangePeriods (absParse : List Char → Option JSDate) (now : JSDate)
    (startDateArg endDateArg : Option (List Char)) : TCPeriods :=
  let cps0 := jsOrStr startDateArg "now-30d".data
  let cpe0 := jsOrStr endDateArg "now".data
  let capped := capTimePeriod absParse now cps0 cpe0 60
  let cps := capped.startDate
  let cpe := capped.endDate
  let startDays := parseDateMath absParse now cps
  let endDays := parseDateMath absParse now cpe
  let periodDuration := |endDays - startDays|
  let previousPeriodEnd := cps
  let previousPeriodStart :=
    if nowDashChars.isPrefixOf cps then
      match matchNowDash cps with
      | some (v, u) => nowDashChars ++ (toString ((v : ℤ) + periodDuration)).data ++ [u]
      | none => nowDashChars ++ (toString (startDays + periodDuration)).data ++ ['d']
    else nowDashChars ++ (toString (startDays + periodDuration)).data ++ ['d']
  ⟨cps, cpe, previousPeriodStart, previousPeriodEnd⟩

/-- Epoch milliseconds of a resolved date string, `none` on resolver failure
(used to state properties about the instants a period string denotes). -/
def resolvedMs (absParse : List Char → Option JSDate) (now : JSDate)
    (s : List Char) : Option ℤ :=
  (resolveDate absParse now s).toOption.map JSDate.getTime

/-! ## Legacy rating-distribution tool time capping
(`src/tools/get-rating-distribution.ts`, `execute` lines 75–90): defaults,
then `capTimePeriod` with 60 days when grouping, 180 otherwise; the capped
dates become the `gte`/`lt` bounds of the range filter (lines 116–124). -/

/-- The `(startDate, endDate)` dates the legacy rating-distribution tool
actually queries with (= the `gte`/`lt` bounds of its time-range filter),
plus the adjustment flag. -/
def ratingDistributionEffectiveRange (absParse : List Char → Option JSDate)
    (now : JSDate) (startDateArg endDateArg : Option (List Char))
    (groupByIsNone : Bool) : CapResult :=
  let startDate := jsOrStr startDateArg "now-30d".data
  let endDate := jsOrStr endDateArg "now".data
  let maxDays : ℤ := if !groupByIsNone then 60 else 180
  capTimePeriod absParse now startDate endDate maxDays

/-! ## Rating-range bucketing (`src/tools/get-rating-distribution.ts`,
`buildRatingAggs`, identical in both tool variants)

```js
const ranges = [];
for (let i = 1; i <= 5; i += bucketSize) {
  const to = Math.min(i + bucketSize - 0.1, 5);
  ranges.push({ from: i, to });
}
ranges.push({ from: 5, to: 5.1 });
```
The schema constrains `bucketSize` to an integer in 1..5. -/

structure RatingRange where
  lo : ℚ
  hi : ℚ
deriving DecidableEq, Repr

/-- The loop body; `fuel` bounds the iteration count (for `b ≥ 1` the loop
runs at most five times starting from `i = 1`, so fuel 5 is exact). -/
def ratingRangesLoop (b : ℕ) : ℕ → ℕ → List RatingRange
  | 0, _ => []
  | fuel + 1, i =>
    if i ≤ 5 then
      ⟨(i : ℚ), min ((i : ℚ) + b - 1/10) 5⟩ :: ratingRangesLoop b fuel (i + b)
    else []

/-- The generated rating ranges for bucket size `b`, including the final
`{from: 5, to: 5.1}` bucket. -/
def buildRatingRanges (b : ℕ) : List RatingRange :=
  ratingRangesLoop b 5 1 ++ [⟨5, 51/10⟩]

/-- Membership of a value in a half-open `[from, to)` range. -/
def inRange (r : RatingRange) (x : ℚ) : Bool :=
  decide (r.lo ≤ x) && decide (x < r.hi)

/-- Number of generated ranges containing `x`. -/
def countContaining (rs : List RatingRange) (x : ℚ) : ℕ :=
  rs.countP (fun r => inRange r x)

/-- The coverage property asserted by the claim, at bucket size `b`: the union
of the generated `[from, to)` ranges contains every point of `[1, 5]`. -/
def ratingCoverageClaim (b : ℕ) : Prop :=
  ∀ x : ℚ, 1 ≤ x → x ≤ 5 → ∃ r ∈ buildRatingRanges b, inRange r x = true

/-! ## Period-over-period computation, current top-change tool
(`TopChangeTool.run`):

```js
const durationMs = currentEndDate.getTime() - currentStartDate.getTime();
const previousEndDate = new Date(currentStartDate.getTime());
const previousStartDate = new Date(previousEndDate.getTime() - durationMs);
```
Instants are epoch milliseconds. -/

/-- `(previousStartMs, previousEndMs)` computed by the current top-change tool
from the resolved current period. -/
def topChangePeriods (startMs endMs : ℤ) : ℤ × ℤ :=
  let durationMs := endMs - startMs
  let previousEndMs := startMs
  let previousStartMs := previousEndMs - durationMs
  (previousStartMs, previousEndMs)

/-! ## Percent change (both top-change variants):

```js
const changePercent =
  previousCount > 0 ? ((change / previousCount) * 100).toFixed(2)
                    : (currentCount > 0 ? 100 : 0);
```
-/

/-- A terms bucket of the top-change aggregation response. `current_period` /
`previous_period` carry the filter sub-aggregation doc counts; `visit_delta`
is the bucket-script value. -/
structure TCBucket where
  key : List Char
  current_period : Option ℚ
  previous_period : Option ℚ
  visit_delta : Option ℚ
deriving Repr

/-- One reported item of the top-change result. -/
structure ChangeInfo where
  item : List Char
  current_period_count : ℚ
  previous_period_count : ℚ
  change : ℚ
  change_percent : ℚ
deriving Repr

/-- Builds one `ChangeInfo` from a response bucket (loop body of both
top-change variants). -/
def mkChangeInfo (b : TCBucket) : ChangeInfo :=
  let currentCount := jsOr b.current_period 0
  let previousCount := jsOr b.previous_period 0
  let change := jsOr b.visit_delta 0
  let changePercent :=
    if previousCount > 0 then round2 (change / previousCount * 100)
    else if currentCount > 0 then (100 : ℚ) else 0
  { item := b.key
    current_period_count := currentCount
    previous_period_count := previousCount
    change := change
    change_percent := changePercent }

/-! ## Platform breakdown tool (`GetPlatformBreakdownTool.run`): top-N plus
Other folding (lines 169–273). -/

/-- A subscription-distribution sub-bucket. -/
structure SubBucket where
  key : List Char
  doc_count : ℚ
deriving DecidableEq, Repr

/-- A terms bucket of the platform-breakdown aggregation response. Metric
sub-aggregation values are `Option`: `none` models a missing/`null` value. -/
structure PBBucket where
  key : List Char
  doc_count : ℚ
  count_records : Option ℚ
  unique_accounts : Option ℚ
  unique_providers : Option ℚ
  unique_patients : Option ℚ
  avg_call_duration : Option ℚ
  provider_rating_count : Option ℚ
  avg_provider_rating : Option ℚ
  patient_rating_count : Option ℚ
  avg_patient_rating : Option ℚ
  subscription_buckets : List SubBucket
deriving Repr

/-- The per-bucket values read in the response loop (lines 184–202). -/
structure PBExtract where
  countRecords : ℚ
  uniqueAccounts : ℚ
  uniqueProviders : ℚ
  uniquePatients : ℚ
  avgCallDuration : Option ℚ
  providerRatingCount : ℚ
  avgProviderRating : Option ℚ
  patientRatingCount : ℚ
  avgPatientRating : Option ℚ
  subscriptionDist : List (List Char × ℚ)
deriving Repr

/-- Reads one response bucket exactly as the loop does: `||` chains for the
counts and `|| null` for the averages (so a zero average coerces to null). -/
def extractPB (b : PBBucket) : PBExtract :=
  { countRecords := jsOr b.count_records (jsOr (some b.doc_count) 0)
    uniqueAccounts := jsOr b.unique_accounts 0
    uniqueProviders := jsOr b.unique_providers 0
    uniquePatients := jsOr b.unique_patients 0
    avgCallDuration := jsOrNull b.avg_call_duration
    providerRatingCount := jsOr b.provider_rating_count 0
    avgProviderRating := jsOrNull b.avg_provider_rating
    patientRatingCount := jsOr b.patient_rating_count 0
    avgPatientRating := jsOrNull b.avg_patient_rating
    subscriptionDist := b.subscription_buckets.map (fun sb => (sb.key, jsOr (some sb.doc_count) 0)) }

/-- `x ? Math.round(x*100)/100 : null` on a possibly-null average. -/
def jsRound2OrNull (o : Option ℚ) : Option ℚ :=
  match o with
  | some v => if v = 0 then none else some (round2 v)
  | none => none

/-- One reported item (`PlatformMetrics` in the source). -/
structure PlatformMetrics where
  platform : List Char
  count_records : ℚ
  unique_accounts : ℚ
  unique_providers : ℚ
  unique_patients : ℚ
  avg_call_duration : Option ℚ
  provider_rating_count : ℚ
  avg_provider_rating : Option ℚ
  patient_rating_count : ℚ
  avg_patient_rating : Option ℚ
  subscription_distribution : List (List Char × ℚ)
deriving Repr

/-- `itemMetrics` for one bucket (lines 204–216). -/
def mkItemMetrics (b : PBBucket) : PlatformMetrics :=
  let e := extractPB b
  { platform := b.key
    count_records := e.countRecords
    unique_accounts := e.uniqueAccounts
    unique_providers := e.uniqueProviders
    unique_patients := e.uniquePatients
    avg_call_duration := jsRound2OrNull e.avgCallDuration
    provider_rating_count := e.providerRatingCount
    avg_provider_rating := jsRound2OrNull e.avgProviderRating
    patient_rating_count := e.patientRatingCount
    avg_patient_rating := jsRound2OrNull e.avgPatientRating
    subscription_distribution := e.subscriptionDist }

/-- The mutable accumulators of the "Other" fold (lines 170–180). -/
structure OtherAcc where
  records : ℚ
  accounts : ℚ
  providers : ℚ
  patients : ℚ
  durSum : ℚ
  durCnt : ℚ
  provSum : ℚ
  provCnt : ℚ
  patSum : ℚ
  patCnt : ℚ
  subMap : List (List Char × ℚ)
deriving Repr

/-- The zero-initialized accumulators. -/
def OtherAcc.init : OtherAcc := ⟨0, 0, 0, 0, 0, 0, 0, 0, 0, 0, []⟩

/-- JS `Map.set(k, (map.get(k) || 0) + c)`: update the first entry with key
`k` in place, or append a new entry. -/
def updateSubMap : List (List Char × ℚ) → List Char → ℚ → List (List Char × ℚ)
  | [], k, c => [(k, c)]
  | kv :: rest, k, c =>
    if kv.1 = k then (kv.1, kv.2 + c) :: rest else kv :: updateSubMap rest k c

/-- The `else` branch of the response loop (lines 220–241): accumulate one
non-top bucket into the Other accumulators. Count-like metrics sum; average
sums are count-weighted and skipped when the (null-coerced) average is
absent. -/
def accOther (acc : OtherAcc) (b : PBBucket) : OtherAcc :=
  let e := extractPB b
  { records := acc.records + e.countRecords
    accounts := acc.accounts + e.uniqueAccounts
    providers := acc.providers + e.uniqueProviders
    patients := acc.patients + e.uniquePatients
    durSum := match e.avgCallDuration with
      | some v => acc.durSum + v * e.countRecords
      | none => acc.durSum
    durCnt := match e.avgCallDuration with
      | some _ => acc.durCnt + e.countRecords
      | none => acc.durCnt
    provSum := match e.avgProviderRating with
      | some v => acc.provSum + v * e.providerRatingCount
      | none => acc.provSum
    provCnt := match e.avgProviderRating with
      | some _ => acc.provCnt + e.providerRatingCount
      | none => acc.provCnt
    patSum := match e.avgPatientRating with
      | some v => acc.patSum + v * e.patientRatingCount
      | none => acc.patSum
    patCnt := match e.avgPatientRating with
      | some _ => acc.patCnt + e.patientRatingCount
      | none => acc.patCnt
    subMap := e.subscriptionDist.foldl (fun m kv => updateSubMap m kv.1 kv.2) acc.subMap }

/-- The synthetic Other item built from the accumulators (lines 246–272);
the label string `Other (N ...)` is abbreviated to `"Other"`. -/
def mkOtherItem (acc : OtherAcc) : PlatformMetrics :=
  { platform := "Other".data
    count_records := acc.records
    unique_accounts := acc.accounts
    unique_providers := acc.providers
    unique_patients := acc.patients
    avg_call_duration :=
      if acc.durCnt > 0 then some (round2 (acc.durSum / acc.durCnt)) else none
    provider_rating_count := acc.provCnt
    avg_provider_rating :=
      if acc.provCnt > 0 then some (round2 (acc.provSum / acc.provCnt)) else none
    patient_rating_count := acc.patCnt
    avg_patient_rating :=
      if acc.patCnt > 0 then some (round2 (acc.patSum / acc.patCnt)) else none
    subscription_distribution := acc.subMap }

/-- The full response fold of `GetPlatformBreakdownTool.run`: the indexed
loop takes the first `topN` buckets as top items and accumulates the rest
(the `i < topN` split = `take`/`drop`), then builds the synthetic Other item
iff any bucket remained (lines 244–273). -/
def platformFold (buckets : List PBBucket) (topN : ℕ) :
    List PlatformMetrics × Option PlatformMetrics :=
  let topItems := (buckets.take topN).map mkItemMetrics
  let acc := (buckets.drop topN).foldl accOther OtherAcc.init
  let otherItems :=
    if buckets.length > topN then some (mkOtherItem acc) else none
  (topItems, otherItems)

/-- Sum of the counts of a subscription distribution. -/
def subTotal (l : List (List Char × ℚ)) : ℚ := (l.map Prod.snd).sum

/-- The claim's formula for an average-like metric of Other, following the
spec's words: over the non-top remaining buckets, skipping exactly the
buckets where the average is absent (`null` in the response), recombine as
`sum(avg_i * weight_i) / sum(weight_i)`. Stated for the call-duration metric,
whose weight is the bucket's record count. -/
def specOtherAvgCallDuration (buckets : List PBBucket) (topN : ℕ) : Option ℚ :=
  let pairs := (buckets.drop topN).filterMap
    (fun b => b.avg_call_duration.map (fun v => (v, (extractPB b).countRecords)))
  if pairs.isEmpty then none
  else some ((pairs.map (fun p => p.1 * p.2)).sum / (pairs.map Prod.snd).sum)

/-- The (average, weight) pairs of the amended claim: over a bucket list,
keep each bucket whose reported average is present AND nonzero (the code's
`|| null` read coerces a zero average to absent), paired with its weight. -/
def weightedPairs (avg : PBBucket → Option ℚ) (wt : PBBucket → ℚ)
    (l : List PBBucket) : List (ℚ × ℚ) :=
  l.filterMap fun b =>
    match avg b with
    | some v => if v = 0 then none else some (v, wt b)
    | none => none

/-- The amended claim's formula for an average-like metric of the Other item:
`sum(avg_i * weight_i) / sum(weight_i)` over the non-top remaining buckets
whose average is present and nonzero, rounded to two decimals; absent when
those weights do not sum to a positive value. -/
def amendedOtherAvg (avg : PBBucket → Option ℚ) (wt : PBBucket → ℚ)
    (buckets : List PBBucket) (topN : ℕ) : Option ℚ :=
  if ((weightedPairs avg wt (buckets.drop topN)).map Prod.snd).sum > 0 then
    some (round2
      (((weightedPairs avg wt (buckets.drop topN)).map (fun p => p.1 * p.2)).sum /
        ((weightedPairs avg wt (buckets.drop topN)).map Prod.snd).sum))
  else none

/-! ## Multi-metric entity finder (`src/tools/find-entities-by-metric.ts`) -/

/-- The metric enumeration. -/
inductive FEMetric where
  | account_count
  | visit_count
  | provider_rating
  | patient_rating
  | avg_call_duration
  | unique_providers
  | unique_patients
  | provider_rating_count
  | patient_rating_count
deriving DecidableEq, Repr

/-- One metric filter (an element of the `metrics` array, or the normalized
legacy single filter). -/
structure FEFilter where
  metric : FEMetric
  min : Option ℚ
  max : Option ℚ
deriving DecidableEq, Repr

/-- A terms bucket of the entity-finder aggregation response; each field is
the corresponding sub-aggregation's `value` (`none` = absent/`null`). -/
structure FEBucket where
  key : List Char
  unique_accounts : Option ℚ
  visit_count : Option ℚ
  avg_provider_rating : Option ℚ
  avg_patient_rating : Option ℚ
  avg_call_duration : Option ℚ
  unique_providers : Option ℚ
  unique_patients : Option ℚ
  provider_rating_count : Option ℚ
  patient_rating_count : Option ℚ
deriving DecidableEq, Repr

/-- `getMetricValueFromBucket` (the `?? null` chains). -/
def getMetricValueFromBucket (b : FEBucket) : FEMetric → Option ℚ
  | .account_count => b.unique_accounts
  | .visit_count => b.visit_count
  | .provider_rating => b.avg_provider_rating
  | .patient_rating => b.avg_patient_rating
  | .avg_call_duration => b.avg_call_duration
  | .unique_providers => b.unique_providers
  | .unique_patients => b.unique_patients
  | .provider_rating_count => b.provider_rating_count
  | .patient_rating_count => b.patient_rating_count

/-- Whether a metric is count-like (rounded to an integer and sorted
descending; others are rating-like: two decimals, ascending). -/
def isCountMetric : FEMetric → Bool
  | .account_count | .visit_count | .unique_providers | .unique_patients
  | .provider_rating_count | .patient_rating_count => true
  | _ => false

/-- One result row. The per-metric echo fields of the source's
`EntityMetricResult` (display only, not read by any further logic) are
omitted; the claims concern `entity`, the filter predicate and the
truncation. -/
structure FEResult where
  entity : List Char
  metric_value : ℚ
  visit_count : ℚ
deriving DecidableEq, Repr

/-- Builds one result row from a bucket (the `.map` stage, lines 318–373):
`metric_value` is the first listed metric's value (count metrics
`Math.round`ed, rating metrics rounded to two decimals), falling back to the
bucket's visit count when missing. -/
def mkFEResult (fs : List FEFilter) (b : FEBucket) : FEResult :=
  let visitCount := jsOr b.visit_count 0
  let metricValue :=
    match fs.head? with
    | some f =>
      match getMetricValueFromBucket b f.metric with
      | some v => if isCountMetric f.metric then jsRound v else round2 v
      | none => visitCount
    | none => visitCount
  { entity := b.key, metric_value := metricValue, visit_count := jsRound visitCount }

/-- The `.filter` predicate (lines 375–390): every filter's metric value must
be present, at least `min` when `min` is given, and at most `max` when `max`
is given. -/
def passesFilters (fs : List FEFilter) (b : FEBucket) : Bool :=
  fs.all fun f =>
    match getMetricValueFromBucket b f.metric with
    | none => false
    | some v =>
      !(match f.min with | some mn => decide (v < mn) | none => false) &&
      !(match f.max with | some mx => decide (mx < v) | none => false)

/-- The mapped-and-filtered result list, before sorting and truncation. -/
def feFilteredResults (fs : List FEFilter) (buckets : List FEBucket) : List FEResult :=
  ((buckets.map (fun b => (mkFEResult fs b, b))).filter
    (fun x => passesFilters fs x.2)).map Prod.fst

/-- Stable insertion into a sorted list (insert before the first element the
new element must precede). -/
def insertSorted (le : FEResult → FEResult → Bool) (a : FEResult) :
    List FEResult → List FEResult
  | [] => [a]
  | b :: t => if le a b then a :: b :: t else b :: insertSorted le a t

/-- The stable sort of the result list by the comparator of lines 398–404:
descending `metric_value` when the first metric is count-like, ascending
otherwise. -/
def sortFE (fs : List FEFilter) (l : List FEResult) : List FEResult :=
  let desc := match fs.head? with | some f => isCountMetric f.metric | none => true
  let le : FEResult → FEResult → Bool := fun a b =>
    if desc then decide (b.metric_value ≤ a.metric_value)
    else decide (a.metric_value ≤ b.metric_value)
  l.foldr (insertSorted le) []

/-- The whole response pipeline of `FindEntitiesByMetricTool.run`:
map → filter → sort → `slice(0, limit)`. -/
def fePipeline (fs : List FEFilter) (limit : ℕ) (buckets : List FEBucket) :
    List FEResult :=
  ((sortFE fs (feFilteredResults fs buckets)).take limit)

/-! ### Argument validation (`FindEntitiesByMetricArgsSchema` refinements) -/

/-- The entity type. -/
inductive EntityType where
  | group
  | account
deriving DecidableEq, Repr

/-- The validated-shape arguments relevant to the schema refinements. -/
structure FEArgs where
  entityType : EntityType
  metric : Option FEMetric
  min : Option ℚ
  max : Option ℚ
  metrics : Option (List FEFilter)
deriving Repr

/-- `MetricFilterSchema.refine`: each metrics-array element needs min or max. -/
def feMetricsElemsOk (a : FEArgs) : Bool :=
  match a.metrics with
  | some l => l.all (fun f => f.min.isSome || f.max.isSome)
  | none => true

/-- First object-level refinement: exactly one of single-metric mode and
(non-empty) metrics-array mode. -/
def feRefineModes (a : FEArgs) : Bool :=
  let hasSingleMetric := a.metric.isSome
  let hasMetricsArray :=
    match a.metrics with
    | some l => decide (l.length > 0)
    | none => false
  if !hasSingleMetric && !hasMetricsArray then false
  else if hasSingleMetric && hasMetricsArray then false
  else true

/-- Second object-level refinement: the single metric needs min or max. -/
def feRefineSingleBounds (a : FEArgs) : Bool :=
  match a.metric with
  | some _ => a.min.isSome || a.max.isSome
  | none => true

/-- Third object-level refinement (lines 60–80): `metricsToCheck` is
`data.metrics || (data.metric ? [{metric}] : [])` — in JS a defined but
EMPTY `metrics` array is truthy and short-circuits the fallback to the
legacy single metric — and `account_count` is rejected for entity type
account. -/
def feRefineEntityMetrics (a : FEArgs) : Bool :=
  let metricsToCheck : List FEFilter :=
    match a.metrics with
    | some l => l
    | none =>
      match a.metric with
      | some m => [⟨m, none, none⟩]
      | none => []
  metricsToCheck.all fun f =>
    !(decide (a.entityType = .account) && decide (f.metric = .account_count))

/-- Full schema validation: field/element checks plus the three object-level
refinements (all must pass). -/
def findEntitiesValidate (a : FEArgs) : Bool :=
  feMetricsElemsOk a && feRefineModes a && feRefineSingleBounds a && feRefineEntityMetrics a

/-- Outcome of `BaseTool.execute` up to the validation boundary. -/
inductive ExecOutcome where
  | validationError
  | ranQuery
deriving DecidableEq, Repr

/-- `BaseTool.execute` for the entity finder: `schema.parse` first; a failing
refinement raises `ZodError`, rethrown as `ValidationError`, and `run` (which
builds and executes the search query) is reached only when validation
passed. -/
def findEntitiesExecuteOutcome (a : FEArgs) : ExecOutcome :=
  if findEntitiesValidate a then .ranQuery else .validationError

/-! ## Claim-side predicates (stated from the specification's words, for
comparison with the embedded source) -/

/-- Spec's words for the date-math grammar of the claim: a relative pattern
`now[+|-]<integer><unit>[/<roundingUnit>]` with unit in {d, w, M, y}
accepting case variants for d/w/y, rounding unit in {d, w, M, y}, and no
unconsumed trailing characters. -/
def specClaimedRelPattern (s : List Char) : Bool :=
  nowChars.isPrefixOf s &&
  (match s.drop 3 with
    | c :: t =>
      (c = '+' || c = '-') &&
      (let (ds, r) := spanDigits t
       !ds.isEmpty &&
       match r with
       | u :: r2 =>
         decide (u ∈ (['d', 'D', 'w', 'W', 'M', 'y', 'Y'] : List Char)) &&
         (match r2 with
          | [] => true
          | ['/', ru] => decide (ru ∈ (['d', 'w', 'M', 'y'] : List Char))
          | _ => false)
       | [] => false)
    | [] => false)

/-! ### The parser's actual acceptance grammar (for the amended claim) -/

/-- Accepted rounding tails: nothing, a bare `/`, or `/` plus exactly one
character (any character; unknown rounding units are ignored). -/
def roundingOk : List Char → Bool
  | [] => true
  | c :: t => decide (c = '/') && decide (t.length ≤ 1)

/-- After the sign and at least one digit: more digits, then a unit from the
offset class, then an accepted rounding tail. -/
def digitsTail : List Char → Bool
  | [] => false
  | c :: t => if c.isDigit then digitsTail t else decide (c ∈ offsetUnits) && roundingOk t

/-- After the sign: at least one digit, then `digitsTail`. -/
def signTail : List Char → Bool
  | [] => false
  | c :: t => c.isDigit && digitsTail t

/-- What may follow `"now"`: an optional offset `[+|-]<digits><unit>` with
unit in {d, w, M, y, Y}, then an accepted rounding tail. -/
def restOk : List Char → Bool
  | [] => true
  | c :: t => if c = '+' ∨ c = '-' then signTail t else roundingOk (c :: t)

/-- The strings `resolveDate` accepts: `"now"`; or `"now"` followed by
`restOk`; or a string not starting with `"now"` that the host timestamp
parser accepts. -/
def resolveAccepts (absParse : List Char → Option JSDate) (s : List Char) : Bool :=
  if s = nowChars then true
  else if nowChars.isPrefixOf s then restOk (s.drop 3)
  else (absParse s).isSome

/-- A host timestamp parser that accepts nothing (used for concrete
evaluations whose inputs never reach the absolute-date branch). -/
def noAbsParse : List Char → Option JSDate := fun _ => none

/-- A sample current instant: 2026-10-12T00:00:00Z (a Monday). -/
def nowSample : JSDate := ⟨daysFromCivil 2026 10 12, 0⟩

/-- Reads a count-like field from the Other item, `0` when there is none. -/
def otherCount (o : Option PlatformMetrics) (f : PlatformMetrics → ℚ) : ℚ :=
  match o with
  | some x => f x
  | none => 0

/-- The percent-change convention in the specification's words:
`previousCount > 0 ? (delta/previousCount)*100 : (currentCount > 0 ? 100 : 0)`
with `delta = current - previous`, two-decimal rounding on the ratio. -/
def specChangePercent (current previous : ℚ) : ℚ :=
  if previous > 0 then round2 ((current - previous) / previous * 100)
  else if current > 0 then 100 else 0

/-- The filter predicate in the specification's words: every filter's
referenced metric value is present (non-null) and within `[min, max]`, a
missing bound being unbounded on that side. -/
def specFilterPass (fs : List FEFilter) (b : FEBucket) : Prop :=
  ∀ f ∈ fs, ∃ v, getMetricValueFromBucket b f.metric = some v ∧
    (∀ mn, f.min = some mn → mn ≤ v) ∧ (∀ mx, f.max = some mx → v ≤ mx)

/-- The request of claim C6's failing input:
`{entityType: "account", metric: "account_count", min: 1, metrics: []}`. -/
def feBugArgs : FEArgs := ⟨.account, some .account_count, some 1, none, some []⟩

/-- Counterexample fixture for the Other weighted average: the top bucket. -/
def pbTopBucket : PBBucket :=
  ⟨"Web".data, 5, some 5, some 1, some 1, some 1, some 7, some 0, none, some 0, none, []⟩

/-- Counterexample fixture: a remaining bucket whose reported call-duration
average is present and equal to zero (10 records, all of duration 0). -/
def pbZeroAvgBucket : PBBucket :=
  ⟨"iOS".data, 10, some 10, some 1, some 1, some 1, some 0, some 0, none, some 0, none, []⟩

/-- Counterexample fixture: a remaining bucket with average 2 over 10
records. -/
def pbTwoAvgBucket : PBBucket :=
  ⟨"Android".data, 10, some 10, some 1, some 1, some 1, some 2, some 0, none, some 0, none, []⟩

/-- Witness fixture: an entity bucket with visit count 15. -/
def feB0 : FEBucket :=
  ⟨"acme".data, none, some 15, none, none, none, none, none, none, none⟩

/-- Witness fixture: an entity bucket with visit count 5. -/
def feB1 : FEBucket :=
  ⟨"zorg".data, none, some 5, none, none, none, none, none, none, none⟩

/-- Witness fixture: one filter, visit count at least 10. -/
def feFs0 : List FEFilter := [⟨.visit_count, some 10, none⟩]

/-- Witness fixture: a remaining bucket with average 3 over 10 records. -/
def pbAvg3Bucket : PBBucket :=
  ⟨"iOS".data, 10, some 10, some 1, some 1, some 1, some 3, some 0, none, some 0, none, []⟩

/-- Witness fixture: a remaining bucket with average 4 over 2 records. -/
def pbAvg4Bucket : PBBucket :=
  ⟨"And".data, 2, some 2, some 1, some 1, some 1, some 4, some 0, none, some 0, none, []⟩

/-- A bucket group's true duration sum, reconstructed from its reported
average and record count. -/
def pbS (b : PBBucket) : ℚ := jsOr b.count_records 0 * jsOr b.avg_call_duration 0

/-- A bucket group's weight: its record count. -/
def pbW (b : PBBucket) : ℚ := jsOr b.count_records 0

end ESMcp

namespace ESMcp

/-!
# Theorems
-/

/-- C9: for all `N ≥ 1` and all multiplier/ceiling values,
`calculateTermsSize(N, m, ceiling) = min(N * m, ceiling)`, and in particular
the result never exceeds the ceiling. -/
theorem calculateTermsSize_spec (N m c : ℤ) (_h : 1 ≤ N) :
    calculateTermsSize N m c = min (N * m) c ∧ calculateTermsSize N m c ≤ c :=
  ⟨rfl, min_le_right _ _⟩

/-- Witness for C9 at `N = 10`, `m = 2`, `ceiling = 100`. -/
theorem calculateTermsSize_spec_witness :
    (1 : ℤ) ≤ 10 ∧
      (calculateTermsSize 10 2 100 = min (10 * 2) 100 ∧ calculateTermsSize 10 2 100 ≤ 100) :=
  ⟨by norm_num, calculateTermsSize_spec 10 2 100 (by norm_num)⟩

/-- C1 counterexample: at bucket size 1, the generated ranges do NOT cover
the interval `[1, 5]`: the rating value `1.95` lies in `[1, 5]` but in none
of the generated `[from, to)` ranges (each range ends `0.1` below the next
start). -/
theorem ratingCoverage_counterexample : ¬ ratingCoverageClaim 1 := by
  intro h
  rcases h (39/20) (by norm_num) (by norm_num) with ⟨r, hr, hx⟩
  have h0 : ∀ r2 ∈ buildRatingRanges 1, ¬ inRange r2 (39/20) = true := by
    simp [buildRatingRanges, ratingRangesLoop, inRange]
    norm_num
  exact h0 r hr hx

/-- C1 (amended): for every bucket size `b` in 1..5, every attainable integer
rating 1..5 falls in exactly one generated bucket; the exact value 5 falls
in the final singleton range `{from: 5, to: 5.1}` (which is the last
generated range) and in no earlier range. The real interval `[1, 5]` is not
fully covered (see the counterexample). -/
theorem ratingRanges_integer_partition (b : ℕ) (hb : b ∈ Finset.Icc 1 5) :
    (∀ k ∈ Finset.Icc (1 : ℕ) 5, countContaining (buildRatingRanges b) (k : ℚ) = 1) ∧
    (buildRatingRanges b).getLast? = some ⟨5, 51/10⟩ ∧
    inRange ⟨5, 51/10⟩ 5 = true ∧
    (buildRatingRanges b).dropLast.all (fun r => !inRange r 5) = true := by
  fin_cases hb <;>
    exact ⟨by
        intro k hk
        fin_cases hk <;>
          norm_num [buildRatingRanges, ratingRangesLoop, countContaining, inRange,
            List.countP, List.countP.go, min_def],
      by norm_num [buildRatingRanges, ratingRangesLoop, List.getLast?_concat],
      by norm_num [inRange],
      by norm_num [buildRatingRanges, ratingRangesLoop, List.dropLast_concat, inRange,
        min_def]⟩

/-- Witness for C1's amended theorem at bucket size 2. -/
theorem ratingRanges_integer_partition_witness :
    2 ∈ Finset.Icc 1 5 ∧
      ((∀ k ∈ Finset.Icc (1 : ℕ) 5, countContaining (buildRatingRanges 2) (k : ℚ) = 1) ∧
       (buildRatingRanges 2).getLast? = some ⟨5, 51/10⟩ ∧
       inRange ⟨5, 51/10⟩ 5 = true ∧
       (buildRatingRanges 2).dropLast.all (fun r => !inRange r 5) = true) :=
  ⟨by decide, ratingRanges_integer_partition 2 (by decide)⟩

/-- C2 counterexample: the legacy top-change tool (`execute` in
`src/tools/top-change.ts`), invoked with `startDate = "now-1w"`,
`endDate = "now"` at the sample instant, rewrites the previous period start
to `"now-8w"`; the resolved current period lasts 7 days but the resolved
previous period lasts 49 days, so the periods do not have identical
duration as the claim states for every accepted expression. -/
theorem topChangeLegacy_duration_counterexample :
    (legacyTopChangePeriods noAbsParse nowSample
        (some "now-1w".data) (some "now".data)).previousStart = "now-8w".data ∧
    (legacyTopChangePeriods noAbsParse nowSample
        (some "now-1w".data) (some "now".data)).previousEnd = "now-1w".data ∧
    resolvedMs noAbsParse nowSample "now".data = some 1791763200000 ∧
    resolvedMs noAbsParse nowSample "now-1w".data = some 1791158400000 ∧
    resolvedMs noAbsParse nowSample "now-8w".data = some 1786924800000 ∧
    (1791763200000 - 1791158400000 : ℤ) = 7 * msPerDay ∧
    (1791158400000 - 1786924800000 : ℤ) = 49 * msPerDay ∧
    (7 : ℤ) * msPerDay ≠ 49 * msPerDay := by
  refine ⟨by decide, by decide, by decide, by decide, by decide, by decide, by decide, by decide⟩

/-- C2 (amended): the current top-change tool (`TopChangeTool.run`) computes
the previous period by exact instant arithmetic: for every resolved current
period, `previousEnd = currentStart` and the durations agree exactly. (The
legacy `execute` variant only approximates this; see the counterexample.) -/
theorem topChangePeriods_exact (s e : ℤ) :
    (topChangePeriods s e).2 = s ∧
      e - s = (topChangePeriods s e).2 - (topChangePeriods s e).1 := by
  refine ⟨rfl, ?_⟩
  simp [topChangePeriods]

/-- C6: the schema's own refinement message says `account_count` can only be
used with entity type group, yet the request
`{entityType: "account", metric: "account_count", min: 1, metrics: []}`
passes validation and reaches query execution: the defined-but-empty
`metrics` array is truthy in JS, so `data.metrics || [{metric: data.metric}]`
short-circuits and the legacy single metric is never checked. Without the
empty array the same request is rejected, as intended. -/
theorem findEntities_groupsOnly_metric_bug :
    feBugArgs.entityType = .account ∧
    feBugArgs.metric = some .account_count ∧
    findEntitiesValidate feBugArgs = true ∧
    findEntitiesExecuteOutcome feBugArgs = .ranQuery ∧
    findEntitiesValidate ⟨.account, some .account_count, some 1, none, none⟩ = false := by
  refine ⟨rfl, rfl, by decide, by decide, by decide⟩

/-- C8: for every top-change result bucket whose bucket-script delta equals
`currentCount - previousCount`, the reported `change_percent` follows the
claimed convention (`(delta/previous)*100` rounded to two decimals when
`previous > 0`, else `100` when `current > 0`, else `0`). -/
theorem topChange_percent_convention (b : TCBucket) (c p : ℚ)
    (hc : b.current_period = some c) (hp : b.previous_period = some p)
    (hd : b.visit_delta = some (c - p)) :
    (mkChangeInfo b).change_percent = specChangePercent c p ∧
    (mkChangeInfo b).current_period_count = c ∧
    (mkChangeInfo b).previous_period_count = p := by
  have hjs : ∀ v : ℚ, jsOr (some v) 0 = v := by
    intro v
    unfold jsOr
    split <;> simp_all
  unfold mkChangeInfo specChangePercent
  rw [hc, hp, hd, hjs, hjs, hjs]
  exact ⟨rfl, rfl, rfl⟩

/-- C10: `capTimePeriod`-based silent capping, as used by the legacy
rating-distribution tool (max 60 days when grouping, 180 otherwise) and the
legacy top-change tool (max 60 days): when the approximate period measured
via `parseDateMath` exceeds the maximum and the start expression begins with
`now-`, the start date is silently replaced by `now-{maxDays}d` (flagged
`wasAdjusted`, no error); when the approximate period is within the cap both
dates pass through unchanged with `wasAdjusted = false`. The capped dates are
exactly the ones the tools then query with. -/
theorem ratingDistribution_time_capping (p : List Char → Option JSDate)
    (now : JSDate) (s e : List Char) (gNone : Bool)
    (hs : s.isEmpty = false) (he : e.isEmpty = false) :
    ((|parseDateMath p now s - parseDateMath p now e| > (if !gNone then (60 : ℤ) else 180)) →
      nowDashChars.isPrefixOf s = true →
      ratingDistributionEffectiveRange p now (some s) (some e) gNone =
        ⟨nowDashChars ++ (toString (if !gNone then (60 : ℤ) else 180)).data ++ ['d'], e, true⟩) ∧
    ((|parseDateMath p now s - parseDateMath p now e| ≤ (if !gNone then (60 : ℤ) else 180)) →
      ratingDistributionEffectiveRange p now (some s) (some e) gNone = ⟨s, e, false⟩) ∧
    (legacyTopChangePeriods p now (some s) (some e)).currentStart =
      (capTimePeriod p now s e 60).startDate ∧
    (legacyTopChangePeriods p now (some s) (some e)).currentEnd =
      (capTimePeriod p now s e 60).endDate := by
  have hjs : ∀ fb, jsOrStr (some s) fb = s := by intro fb; simp [jsOrStr, hs]
  have hje : ∀ fb, jsOrStr (some e) fb = e := by intro fb; simp [jsOrStr, he]
  refine ⟨?_, ?_, ?_, ?_⟩
  · intro hgt hpre
    unfold ratingDistributionEffectiveRange
    rw [hjs, hje]
    unfold capTimePeriod
    simp only [hpre, if_pos hgt, if_true]
  · intro hle
    unfold ratingDistributionEffectiveRange
    rw [hjs, hje]
    unfold capTimePeriod
    simp only [if_neg (not_lt.mpr hle)]
  · unfold legacyTopChangePeriods
    rw [hjs, hje]
  · unfold legacyTopChangePeriods
    rw [hjs, hje]

/-- Witness for C10: at the sample instant, `now-365d`/`now` with the 180-day
ungrouped cap is shortened to `now-180d`, while `now-30d`/`now` passes
through unchanged. -/
theorem ratingDistribution_time_capping_witness :
    ratingDistributionEffectiveRange noAbsParse nowSample
        (some "now-365d".data) (some "now".data) true =
      ⟨nowDashChars ++ (toString (180 : ℤ)).data ++ ['d'], "now".data, true⟩ ∧
    ratingDistributionEffectiveRange noAbsParse nowSample
        (some "now-30d".data) (some "now".data) true = ⟨"now-30d".data, "now".data, false⟩ :=
  ⟨(ratingDistribution_time_capping noAbsParse nowSample "now-365d".data "now".data true
      rfl rfl).1 (by decide) (by decide),
   (ratingDistribution_time_capping noAbsParse nowSample "now-30d".data "now".data true
      rfl rfl).2.1 (by decide)⟩

/-- Adding one entry to the subscription map adds its count to the total. -/
theorem updateSubMap_total (m : List (List Char × ℚ)) (k : List Char) (c : ℚ) :
    subTotal (updateSubMap m k c) = subTotal m + c := by
  induction m with
  | nil => simp [updateSubMap, subTotal]
  | cons kv rest ih =>
    by_cases hk : kv.1 = k
    · simp [updateSubMap, hk, subTotal]
      ring
    · simp only [updateSubMap, if_neg hk, subTotal, List.map_cons, List.sum_cons] at *
      rw [ih]
      ring

/-- Folding a subscription distribution into the map adds its total. -/
theorem foldl_updateSubMap_total (kvs : List (List Char × ℚ)) (m : List (List Char × ℚ)) :
    subTotal (kvs.foldl (fun m2 kv => updateSubMap m2 kv.1 kv.2) m) =
      subTotal m + subTotal kvs := by
  induction kvs generalizing m with
  | nil => simp [subTotal]
  | cons kv t ih =>
    simp only [List.foldl_cons]
    rw [ih, updateSubMap_total]
    simp only [subTotal, List.map_cons, List.sum_cons]
    ring

/-- A projection of the Other accumulators that increases by `g b` at every
accumulated bucket sums the projections over the folded list. -/
theorem foldl_accOther_proj (F : OtherAcc → ℚ) (g : PBBucket → ℚ)
    (hstep : ∀ acc b, F (accOther acc b) = F acc + g b) (l : List PBBucket) :
    ∀ acc, F (l.foldl accOther acc) = F acc + (l.map g).sum := by
  induction l with
  | nil => intro acc; simp
  | cons b t ih =>
    intro acc
    simp only [List.foldl_cons, List.map_cons, List.sum_cons]
    rw [ih, hstep]
    ring

/-- Count conservation for one count-like metric of the platform fold. -/
theorem platformFold_conserve_one (buckets : List PBBucket) (topN : ℕ)
    (f : PlatformMetrics → ℚ) (g : PBBucket → ℚ) (F : OtherAcc → ℚ)
    (hmk : ∀ b, f (mkItemMetrics b) = g b)
    (hstep : ∀ acc b, F (accOther acc b) = F acc + g b)
    (hinit : F OtherAcc.init = 0)
    (hread : ∀ acc, f (mkOtherItem acc) = F acc) :
    ((platformFold buckets topN).1.map f).sum + otherCount (platformFold buckets topN).2 f =
      (buckets.map g).sum := by
  unfold platformFold
  simp only
  have htop : (((buckets.take topN).map mkItemMetrics).map f).sum =
      ((buckets.map g).take topN).sum := by
    rw [List.map_map, ← List.map_take]
    congr 1
    exact List.map_congr_left (fun b _ => hmk b)
  have hacc : F ((buckets.drop topN).foldl accOther OtherAcc.init) =
      ((buckets.map g).drop topN).sum := by
    rw [foldl_accOther_proj F g hstep, hinit, List.map_drop]
    ring
  by_cases h : buckets.length > topN
  · simp only [if_pos h, otherCount, hread, htop, hacc]
    exact List.sum_take_add_sum_drop _ _
  · have hd : buckets.drop topN = [] := List.drop_eq_nil_of_le (le_of_not_lt h)
    simp only [if_neg h, otherCount, htop]
    rw [← List.sum_take_add_sum_drop (buckets.map g) topN]
    rw [← List.map_drop, hd]
    simp

/-- C3: Top-N plus Other folding conserves counts: for any fetched bucket
list and any `topN`, the sum of each count-like metric over the top items
plus the Other item's value equals the sum over all fetched buckets — for
record counts, the summed unique counts (accounts, providers, patients), and
the subscription-distribution totals. -/
theorem platformFold_count_conservation (buckets : List PBBucket) (topN : ℕ) :
    (((platformFold buckets topN).1.map PlatformMetrics.count_records).sum +
        otherCount (platformFold buckets topN).2 PlatformMetrics.count_records =
      (buckets.map fun b => (extractPB b).countRecords).sum) ∧
    (((platformFold buckets topN).1.map PlatformMetrics.unique_accounts).sum +
        otherCount (platformFold buckets topN).2 PlatformMetrics.unique_accounts =
      (buckets.map fun b => (extractPB b).uniqueAccounts).sum) ∧
    (((platformFold buckets topN).1.map PlatformMetrics.unique_providers).sum +
        otherCount (platformFold buckets topN).2 PlatformMetrics.unique_providers =
      (buckets.map fun b => (extractPB b).uniqueProviders).sum) ∧
    (((platformFold buckets topN).1.map PlatformMetrics.unique_patients).sum +
        otherCount (platformFold buckets topN).2 PlatformMetrics.unique_patients =
      (buckets.map fun b => (extractPB b).uniquePatients).sum) ∧
    (((platformFold buckets topN).1.map fun i => subTotal i.subscription_distribution).sum +
        otherCount (platformFold buckets topN).2 (fun o => subTotal o.subscription_distribution) =
      (buckets.map fun b => subTotal (extractPB b).subscriptionDist).sum) :=
  ⟨platformFold_conserve_one buckets topN _ _ OtherAcc.records
      (fun b => rfl) (fun acc b => rfl) rfl (fun acc => rfl),
   platformFold_conserve_one buckets topN _ _ OtherAcc.accounts
      (fun b => rfl) (fun acc b => rfl) rfl (fun acc => rfl),
   platformFold_conserve_one buckets topN _ _ OtherAcc.providers
      (fun b => rfl) (fun acc b => rfl) rfl (fun acc => rfl),
   platformFold_conserve_one buckets topN _ _ OtherAcc.patients
      (fun b => rfl) (fun acc b => rfl) rfl (fun acc => rfl),
   platformFold_conserve_one buckets topN _ _ (fun acc => subTotal acc.subMap)
      (fun b => rfl)
      (fun acc b => by
        simp only [accOther]
        exact foldl_updateSubMap_total _ _)
      (by simp [OtherAcc.init, subTotal])
      (fun acc => rfl)⟩

/-- A pair of Other accumulators that follows the average/weight update
pattern of `accOther` sums exactly the weighted pairs of the folded list. -/
theorem foldl_accOther_avg_pairs (FS FC : OtherAcc → ℚ)
    (avg : PBBucket → Option ℚ) (wt : PBBucket → ℚ)
    (hstep : ∀ acc b,
      FS (accOther acc b) =
        (match jsOrNull (avg b) with
         | some v => FS acc + v * wt b
         | none => FS acc) ∧
      FC (accOther acc b) =
        (match jsOrNull (avg b) with
         | some _ => FC acc + wt b
         | none => FC acc))
    (l : List PBBucket) : ∀ acc,
    FS (l.foldl accOther acc) =
      FS acc + ((weightedPairs avg wt l).map (fun p => p.1 * p.2)).sum ∧
    FC (l.foldl accOther acc) =
      FC acc + ((weightedPairs avg wt l).map Prod.snd).sum := by
  induction l with
  | nil => intro acc; simp [weightedPairs]
  | cons b t ih =>
    intro acc
    obtain ⟨hS, hC⟩ := hstep acc b
    obtain ⟨iS, iC⟩ := ih (accOther acc b)
    simp only [List.foldl_cons]
    constructor
    · rw [iS, hS]
      cases havg : avg b with
      | none => simp [weightedPairs, List.filterMap_cons, havg, jsOrNull]
      | some v =>
        by_cases hv : v = 0
        · simp [weightedPairs, List.filterMap_cons, havg, hv, jsOrNull]
        · simp only [weightedPairs, List.filterMap_cons, havg, jsOrNull,
            if_neg hv, List.map_cons, List.sum_cons]
          ring
    · rw [iC, hC]
      cases havg : avg b with
      | none => simp [weightedPairs, List.filterMap_cons, havg, jsOrNull]
      | some v =>
        by_cases hv : v = 0
        · simp [weightedPairs, List.filterMap_cons, havg, hv, jsOrNull]
        · simp only [weightedPairs, List.filterMap_cons, havg, jsOrNull,
            if_neg hv, List.map_cons, List.sum_cons]
          ring

/-- When every bucket of the list reports the (nonzero) true mean `S b / w b`
of its group with weight `w b`, the weighted pairs keep every bucket. -/
theorem weightedPairs_of_true_means (S w : PBBucket → ℚ) (l : List PBBucket)
    (h : ∀ b ∈ l, b.avg_call_duration = some (S b / w b) ∧ S b / w b ≠ 0 ∧
      0 < w b ∧ (extractPB b).countRecords = w b) :
    weightedPairs (fun b => b.avg_call_duration)
        (fun b => (extractPB b).countRecords) l =
      l.map (fun b => (S b / w b, w b)) := by
  induction l with
  | nil => rfl
  | cons b t ih =>
    obtain ⟨hav, hnz, _hw, hcr⟩ := h b (List.mem_cons_self b t)
    simp only [weightedPairs, List.filterMap_cons, List.map_cons, hav,
      if_neg hnz, hcr]
    exact congrArg (List.cons _) (ih (fun x hx => h x (List.mem_cons_of_mem _ hx)))

/-- C4 (amended): whenever the Other item exists, EACH of its average-like
metrics (call duration, provider rating, patient rating) equals the
two-decimal rounding of `sum(avg_i * weight_i) / sum(weight_i)` over exactly
the non-top remaining buckets whose reported average is present AND nonzero
(the `|| null` read coerces a zero average to absent and skips that bucket),
with the record count as the weight for call duration and the rating counts
as the weights for the ratings, and is null when those weights do not sum
positively — for every bucket list, with no restriction on the averages.
When additionally every remaining bucket reports the nonzero true mean
`S b / w b` of its group, the formula's value is the two-decimal rounding of
`sum(S) / sum(w)`, the true combined average of the merged groups; it is
never an unweighted average of the averages. -/
theorem platformOther_weighted_average (buckets : List PBBucket) (topN : ℕ)
    (hlen : topN < buckets.length) :
    ((platformFold buckets topN).2.map (fun o => o.avg_call_duration) =
      some (amendedOtherAvg (fun b => b.avg_call_duration)
        (fun b => (extractPB b).countRecords) buckets topN)) ∧
    ((platformFold buckets topN).2.map (fun o => o.avg_provider_rating) =
      some (amendedOtherAvg (fun b => b.avg_provider_rating)
        (fun b => (extractPB b).providerRatingCount) buckets topN)) ∧
    ((platformFold buckets topN).2.map (fun o => o.avg_patient_rating) =
      some (amendedOtherAvg (fun b => b.avg_patient_rating)
        (fun b => (extractPB b).patientRatingCount) buckets topN)) ∧
    (∀ S w : PBBucket → ℚ,
      (∀ b ∈ buckets.drop topN, b.avg_call_duration = some (S b / w b) ∧
        S b / w b ≠ 0 ∧ 0 < w b ∧ (extractPB b).countRecords = w b) →
      amendedOtherAvg (fun b => b.avg_call_duration)
          (fun b => (extractPB b).countRecords) buckets topN =
        some (round2 (((buckets.drop topN).map S).sum /
          ((buckets.drop topN).map w).sum))) := by
  have hdur := foldl_accOther_avg_pairs OtherAcc.durSum OtherAcc.durCnt
    (fun b => b.avg_call_duration) (fun b => (extractPB b).countRecords)
    (by
      intro acc b
      constructor <;> (cases h : jsOrNull b.avg_call_duration <;> simp [accOther, extractPB, h]))
    (buckets.drop topN) OtherAcc.init
  have hprov := foldl_accOther_avg_pairs OtherAcc.provSum OtherAcc.provCnt
    (fun b => b.avg_provider_rating) (fun b => (extractPB b).providerRatingCount)
    (by
      intro acc b
      constructor <;> (cases h : jsOrNull b.avg_provider_rating <;> simp [accOther, extractPB, h]))
    (buckets.drop topN) OtherAcc.init
  have hpat := foldl_accOther_avg_pairs OtherAcc.patSum OtherAcc.patCnt
    (fun b => b.avg_patient_rating) (fun b => (extractPB b).patientRatingCount)
    (by
      intro acc b
      constructor <;> (cases h : jsOrNull b.avg_patient_rating <;> simp [accOther, extractPB, h]))
    (buckets.drop topN) OtherAcc.init
  have hfold : ∀ pf : PlatformMetrics → Option ℚ,
      (platformFold buckets topN).2.map pf =
        some (pf (mkOtherItem ((buckets.drop topN).foldl accOther OtherAcc.init))) := by
    intro pf
    unfold platformFold
    simp [if_pos hlen]
  refine ⟨?_, ?_, ?_, ?_⟩
  · obtain ⟨h1, h2⟩ := hdur
    rw [hfold]
    refine congrArg some ?_
    simp only [mkOtherItem]
    rw [h1, h2]
    simp only [OtherAcc.init, zero_add]
    rfl
  · obtain ⟨h1, h2⟩ := hprov
    rw [hfold]
    refine congrArg some ?_
    simp only [mkOtherItem]
    rw [h1, h2]
    simp only [OtherAcc.init, zero_add]
    rfl
  · obtain ⟨h1, h2⟩ := hpat
    rw [hfold]
    refine congrArg some ?_
    simp only [mkOtherItem]
    rw [h1, h2]
    simp only [OtherAcc.init, zero_add]
    rfl
  · intro S w h
    have hdrop : buckets.drop topN ≠ [] := by
      intro hnil
      rw [List.drop_eq_nil_iff] at hnil
      omega
    have hpos : 0 < ((buckets.drop topN).map w).sum := by
      apply List.sum_pos
      · intro x hx
        obtain ⟨b, hb, rfl⟩ := List.mem_map.mp hx
        exact (h b hb).2.2.1
      · intro hm
        exact hdrop (List.map_eq_nil_iff.mp hm)
    unfold amendedOtherAvg
    rw [weightedPairs_of_true_means S w _ h]
    have h2 : ((buckets.drop topN).map (fun b => (S b / w b, w b))).map Prod.snd =
        (buckets.drop topN).map w := by
      rw [List.map_map]
      rfl
    have h1 : ((buckets.drop topN).map (fun b => (S b / w b, w b))).map
        (fun p : ℚ × ℚ => p.1 * p.2) = (buckets.drop topN).map S := by
      rw [List.map_map]
      exact List.map_congr_left
        (fun b hb => div_mul_cancel₀ _ (ne_of_gt (h b hb).2.2.1))
    rw [h1, h2, if_pos hpos]

/-- Witness for C4's amended theorem: with one top bucket, a remaining bucket
whose reported average is zero (and is skipped) and one with average 2, the
code's Other average equals the amended formula's value; and with remaining
buckets reporting true means `30/10 = 3` and `8/2 = 4`, the formula gives
`round2(38/12)`. -/
theorem platformOther_weighted_average_witness :
    ((platformFold [pbTopBucket, pbZeroAvgBucket, pbTwoAvgBucket] 1).2.map
        (fun o => o.avg_call_duration) =
      some (amendedOtherAvg (fun b => b.avg_call_duration)
        (fun b => (extractPB b).countRecords) [pbTopBucket, pbZeroAvgBucket, pbTwoAvgBucket] 1)) ∧
    amendedOtherAvg (fun b => b.avg_call_duration)
        (fun b => (extractPB b).countRecords) [pbTopBucket, pbAvg3Bucket, pbAvg4Bucket] 1 =
      some (round2 ((([pbTopBucket, pbAvg3Bucket, pbAvg4Bucket].drop 1).map pbS).sum /
        (([pbTopBucket, pbAvg3Bucket, pbAvg4Bucket].drop 1).map pbW).sum)) :=
  ⟨(platformOther_weighted_average [pbTopBucket, pbZeroAvgBucket, pbTwoAvgBucket] 1
      (by norm_num)).1,
   (platformOther_weighted_average [pbTopBucket, pbAvg3Bucket, pbAvg4Bucket] 1
      (by norm_num)).2.2.2 pbS pbW
    (by
      intro b hb
      fin_cases hb <;>
        exact ⟨by norm_num [jsOr, pbS, pbW, pbAvg3Bucket, pbAvg4Bucket],
          by norm_num [jsOr, pbS, pbW, pbAvg3Bucket, pbAvg4Bucket],
          by norm_num [pbW, jsOr, pbAvg3Bucket, pbAvg4Bucket],
          by norm_num [extractPB, jsOr, pbW, pbAvg3Bucket, pbAvg4Bucket]⟩)⟩

/-- C4 counterexample: a remaining bucket whose reported average is present
and equal to `0` (10 records of duration 0, next to 10 records of average 2)
is skipped by the code's `|| null` coercion: the code reports Other average
`2`, while the claim's formula over buckets with a present average — and the
true combined average of the merged groups — is `1`. -/
theorem platformOther_claim_counterexample :
    (platformFold [pbTopBucket, pbZeroAvgBucket, pbTwoAvgBucket] 1).2.map
        (fun o => o.avg_call_duration) = some (some 2) ∧
    pbZeroAvgBucket.avg_call_duration = some 0 ∧
    specOtherAvgCallDuration [pbTopBucket, pbZeroAvgBucket, pbTwoAvgBucket] 1 = some 1 ∧
    (2 : ℚ) ≠ 1 := by
  refine ⟨?_, rfl, ?_, by norm_num⟩
  · norm_num [platformFold, pbTopBucket, pbZeroAvgBucket, pbTwoAvgBucket, accOther,
      extractPB, jsOr, jsOrNull, OtherAcc.init, mkOtherItem, round2, jsRound]
  · norm_num [specOtherAvgCallDuration, pbTopBucket, pbZeroAvgBucket, pbTwoAvgBucket,
      extractPB, jsOr, List.filterMap]

/-- The code's per-entity filter equals the specification's predicate: every
filter's metric present and within its optional bounds. -/
theorem passesFilters_iff (fs : List FEFilter) (b : FEBucket) :
    passesFilters fs b = true ↔ specFilterPass fs b := by
  unfold passesFilters specFilterPass
  rw [List.all_eq_true]
  apply forall_congr'
  intro f
  apply imp_congr_right
  intro _
  cases ho : getMetricValueFromBucket b f.metric with
  | none => simp [ho]
  | some v =>
    cases hmn : f.min <;> cases hmx : f.max <;>
      simp [ho, hmn, hmx, not_lt]

/-- Mapping then filtering on the carried bucket equals filtering the buckets
then mapping. -/
theorem feFilteredResults_eq (fs : List FEFilter) (buckets : List FEBucket) :
    feFilteredResults fs buckets =
      (buckets.filter (fun b => passesFilters fs b)).map (mkFEResult fs) := by
  induction buckets with
  | nil => rfl
  | cons b t ih =>
    by_cases h : passesFilters fs b
    · simp only [feFilteredResults, List.map_cons, List.filter_cons, h, if_pos] at *
      simp [ih]
    · simp only [feFilteredResults, List.map_cons, List.filter_cons, h] at *
      simp [ih]

/-- C5: for every response bucket list and every non-empty filter list, the
per-entity filter is exactly "each metric present and within [min, max]"
(missing bound = unbounded); the filtered list is the filter of the bucket
list; an entity appears in it iff some bucket with that key passes all
filters; and the limit truncation is applied only after this filtering (and
the sort). -/
theorem findEntities_filter_semantics (fs : List FEFilter) (limit : ℕ)
    (buckets : List FEBucket) (_hfs : fs ≠ []) :
    (∀ b, passesFilters fs b = true ↔ specFilterPass fs b) ∧
    feFilteredResults fs buckets =
      (buckets.filter (fun b => passesFilters fs b)).map (mkFEResult fs) ∧
    (∀ e, e ∈ (feFilteredResults fs buckets).map FEResult.entity ↔
      ∃ b ∈ buckets, passesFilters fs b = true ∧ b.key = e) ∧
    fePipeline fs limit buckets = (sortFE fs (feFilteredResults fs buckets)).take limit := by
  refine ⟨fun b => passesFilters_iff fs b, feFilteredResults_eq fs buckets, ?_, rfl⟩
  intro e
  rw [feFilteredResults_eq]
  simp only [List.map_map, List.mem_map, List.mem_filter, Function.comp]
  constructor
  · rintro ⟨b, ⟨hb, hp⟩, he⟩
    exact ⟨b, hb, hp, by simpa [mkFEResult] using he⟩
  · rintro ⟨b, hb, hp, he⟩
    exact ⟨b, ⟨hb, hp⟩, by simpa [mkFEResult] using he⟩

/-- Witness for C5: with the single filter "visit count ≥ 10", the entity
with 15 visits appears among the filtered entities. -/
theorem findEntities_filter_semantics_witness :
    "acme".data ∈ (feFilteredResults feFs0 [feB0, feB1]).map FEResult.entity :=
  ((findEntities_filter_semantics feFs0 1 [feB0, feB1]
      (List.cons_ne_nil _ _)).2.2.1 "acme".data).mpr
    ⟨feB0, List.mem_cons_self _ _,
      by norm_num [passesFilters, feFs0, feB0, getMetricValueFromBucket], rfl⟩

/-- The rounding-and-junk tail succeeds exactly on the accepted rounding
tails. -/
theorem resolveRounding_isOk (t : JSDate) (w : List Char) :
    (resolveRounding t w).isOk = roundingOk w := by
  cases w with
  | nil => rfl
  | cons c t2 =>
    by_cases hc : c = '/'
    · subst hc
      cases t2 with
      | nil => rfl
      | cons d t3 =>
        cases t3 with
        | nil => rfl
        | cons e t4 => rfl
    · unfold resolveRounding roundingOk
      simp only [List.head?_cons, Option.some.injEq, hc, if_false, List.isEmpty_cons,
        decide_eq_true_eq]
      rw [if_neg (by simp [hc])]
      simp [hc, Except.toBool]

/-- After the maximal digit run, the unit-then-rounding continuation agrees
with the grammar matcher `digitsTail`. -/
theorem spanDigits_unit_eq (t : List Char) :
    (match (spanDigits t).2 with
      | u :: r2 => decide (u ∈ offsetUnits) && roundingOk r2
      | [] => false) = digitsTail t := by
  induction t with
  | nil => rfl
  | cons c t2 ih =>
    by_cases hd : c.isDigit
    · rcases hsd : spanDigits t2 with ⟨ds, r⟩
      rw [hsd] at ih
      simp only [spanDigits, hd, if_true, hsd]
      rw [digitsTail]
      simp [hd, ih]
    · simp only [spanDigits, hd, if_false]
      rw [digitsTail]
      simp [hd]

/-- The digit-run-then-unit requirement of the offset regex agrees with the
grammar matcher `signTail`. -/
theorem spanDigits_sign_eq (t : List Char) :
    (if (spanDigits t).1.isEmpty then false
     else match (spanDigits t).2 with
       | u :: r2 => decide (u ∈ offsetUnits) && roundingOk r2
       | [] => false) = signTail t := by
  cases t with
  | nil => rfl
  | cons c t2 =>
    by_cases hd : c.isDigit
    · rcases hsd : spanDigits t2 with ⟨ds, r⟩
      have hD := spanDigits_unit_eq t2
      rw [hsd] at hD
      simp only [spanDigits, hd, if_true, hsd, List.isEmpty_cons]
      rw [signTail]
      simp [hd, hD]
    · simp only [spanDigits, hd, if_false, List.isEmpty_nil]
      rw [signTail]
      simp [hd]

/-- A sign character is never a slash. -/
theorem roundingOk_sign_false (c : Char) (t : List Char)
    (hsig : c = '+' ∨ c = '-') : roundingOk (c :: t) = false := by
  rcases hsig with rfl | rfl <;> rfl

/-- Evaluation equation for `parseOffset` on a nonempty string. -/
theorem parseOffset_cons (c : Char) (t : List Char) :
    parseOffset (c :: t) =
      if c = '+' ∨ c = '-' then
        match spanDigits t with
        | (ds, r) =>
          if ds.isEmpty then none
          else
            match r with
            | u :: r2 =>
              if u ∈ offsetUnits then some (decide (c = '-'), natOfDigits ds, u, r2)
              else none
            | [] => none
      else none := rfl

/-- The relative branch of `resolveDate` succeeds exactly on `restOk`. -/
theorem resolveRelative_isOk (now : JSDate) (w : List Char) :
    (resolveRelative now w).isOk = restOk w := by
  cases w with
  | nil =>
    rw [show resolveRelative now [] = resolveRounding now [] from rfl,
      resolveRounding_isOk]
    rfl
  | cons c t =>
    by_cases hsig : c = '+' ∨ c = '-'
    · have hro : restOk (c :: t) = signTail t := by
        rw [restOk, if_pos hsig]
      rw [hro]
      have hC := spanDigits_sign_eq t
      rcases hsd : spanDigits t with ⟨ds, r⟩
      rw [hsd] at hC
      cases hde : ds.isEmpty with
      | true =>
        have hpo : parseOffset (c :: t) = none := by
          rw [parseOffset_cons, if_pos hsig, hsd]
          simp [hde]
        unfold resolveRelative
        rw [hpo]
        show (resolveRounding now (c :: t)).isOk = signTail t
        rw [resolveRounding_isOk, roundingOk_sign_false c t hsig]
        rw [hde] at hC
        simpa using hC
      | false =>
        rw [hde] at hC
        cases r with
        | nil =>
          have hpo : parseOffset (c :: t) = none := by
            rw [parseOffset_cons, if_pos hsig, hsd]
            simp [hde]
          unfold resolveRelative
          rw [hpo]
          show (resolveRounding now (c :: t)).isOk = signTail t
          rw [resolveRounding_isOk, roundingOk_sign_false c t hsig]
          simpa using hC
        | cons u r2 =>
          by_cases hu : u ∈ offsetUnits
          · have hpo : parseOffset (c :: t) =
                some (decide (c = '-'), natOfDigits ds, u, r2) := by
              rw [parseOffset_cons, if_pos hsig, hsd]
              simp [hde, hu]
            unfold resolveRelative
            rw [hpo]
            show (resolveRounding
              (applyOffsetUnit now
                (if decide (c = '-') then -(natOfDigits ds : ℤ) else (natOfDigits ds : ℤ)) u)
              r2).isOk = signTail t
            rw [resolveRounding_isOk]
            simp [hu] at hC
            simpa using hC
          · have hpo : parseOffset (c :: t) = none := by
              rw [parseOffset_cons, if_pos hsig, hsd]
              simp [hde, hu]
            unfold resolveRelative
            rw [hpo]
            show (resolveRounding now (c :: t)).isOk = signTail t
            rw [resolveRounding_isOk, roundingOk_sign_false c t hsig]
            simp [hu] at hC
            simpa using hC
    · have hro : restOk (c :: t) = roundingOk (c :: t) := by
        rw [restOk, if_neg hsig]
      rw [hro]
      have hpo : parseOffset (c :: t) = none := by
        rw [parseOffset_cons, if_neg hsig]
      unfold resolveRelative
      rw [hpo]
      exact resolveRounding_isOk now (c :: t)

/-- C7 (amended): `resolveDate(expr)` succeeds exactly when `expr` is `"now"`;
or starts with `"now"` followed by an optional offset `[+|-]<digits><unit>`
with unit in {d, w, M, y, Y} (uppercase `D` and `W` are rejected by the
offset regex) and then an optional rounding segment consisting of `/` plus at
most one further character of ANY kind (unknown rounding units are silently
ignored), with nothing left over; or does not start with `"now"` and is
accepted by the host absolute-timestamp parser. -/
theorem resolveDate_success_iff (p : List Char → Option JSDate) (now : JSDate)
    (s : List Char) : (resolveDate p now s).isOk = resolveAccepts p s := by
  unfold resolveDate resolveAccepts
  by_cases h1 : s = nowChars
  · simp [h1, Except.isOk, Except.toBool]
  · rw [if_neg h1, if_neg h1]
    cases h2 : nowChars.isPrefixOf s with
    | true =>
      simp only [if_true]
      exact resolveRelative_isOk now (s.drop 3)
    | false =>
      simp only [Bool.false_eq_true, if_false]
      cases hps : p s <;> simp [hps, Except.isOk, Except.toBool]

/-- C7 counterexample: the claim's grammar accepts `now-1D` (case variant of
unit d) but the resolver rejects it, since the offset regex class `[dMwYy]`
lacks uppercase D and W; conversely the resolver accepts `now-1d/q`, which
the claim's grammar rejects (rounding unit `q` ∉ {d, w, M, y}) and which no
absolute-timestamp parser is consulted for. -/
theorem resolveDate_claim_counterexample :
    specClaimedRelPattern "now-1D".data = true ∧
    (resolveDate noAbsParse nowSample "now-1D".data).isOk = false ∧
    specClaimedRelPattern "now-1d/q".data = false ∧
    "now-1d/q".data ≠ nowChars ∧
    (noAbsParse "now-1d/q".data).isSome = false ∧
    (resolveDate noAbsParse nowSample "now-1d/q".data).isOk = true := by
  refine ⟨by decide, by decide, by decide, by decide, rfl, by decide⟩

/-- Witness for C8 at a concrete bucket (current 5, previous 4, delta 1). -/
theorem topChange_percent_convention_witness :
    (mkChangeInfo ⟨"a".data, some 5, some 4, some 1⟩).change_percent =
      specChangePercent 5 4 :=
  (topChange_percent_convention ⟨"a".data, some 5, some 4, some 1⟩ 5 4 rfl rfl
    (by norm_num)).1

end ESMcp
